import Mathlib

/-!
Verification development for the `daily_assistant` repository.

The definitions below are a shallow embedding of the Python source:

* `Chat.*` embeds `ChatBotTab.get_bot_response` (Modules/ChatBotTab/ChatbotTab.py):
  the bounded conversation history and the prompt construction.
* `Detect.*` embeds the two detection backends used by
  `SortPicturesTab` (Modules/SortPituresTab/SortPicturesTab.py).
* `Sort.*` embeds the batch loop of `SortPicturesTab.sort_pictures`:
  per-file outcome handling, the three counters, the status log and the
  initialization / abort phase.
* `Names.*` embeds the duplicate-destination-name loop
  (`while dest_path.exists(): ... f"{stem}_{counter}{suffix}"`).
* `TM.*` embeds `TaskManager` from app.py (run_task, the worker wrapper,
  and the `threading.Timer`-based monitor).
-/

namespace Chat

/-- Embeds `self.chat_history.append(user_message)` followed by
`if len(self.chat_history) > 10: self.chat_history = self.chat_history[-10:]`
(ChatbotTab.py lines 392-397).  Python's `l[-10:]` keeps the last 10
elements, i.e. drops `len - 10` from the front. -/
def appendUserMessage (hist : List String) (msg : String) : List String :=
  let h := hist ++ [msg]
  if h.length > 10 then h.drop (h.length - 10) else h

/-- Embeds `self.chat_history.append(response)` (ChatbotTab.py line 431).
No truncation happens on this append. -/
def appendBotReply (hist : List String) (resp : String) : List String :=
  hist ++ [resp]

/-- One chat turn: the user utterance is appended (with truncation), the
model reply is appended (without truncation). -/
def chatTurn (hist : List String) (user resp : String) : List String :=
  appendBotReply (appendUserMessage hist user) resp

/-- A sequence of turns starting from a given history. -/
def runChatTurns (hist : List String) (turns : List (String × String)) : List String :=
  turns.foldl (fun h t => chatTurn h t.1 t.2) hist

/-- Embeds Python's `sep.join(l)`: empty string for `[]`, the single
element for `[x]`, and the elements with `sep` in between otherwise. -/
def pyJoin (sep : String) : List String → String
  | [] => ""
  | [x] => x
  | x :: y :: xs => x ++ sep ++ pyJoin sep (y :: xs)

/-- Embeds `" ".join(self.chat_history) + self.tokenizer.eos_token`
(ChatbotTab.py lines 400-401): the string handed to the tokenizer. -/
def buildPrompt (hist : List String) (eosToken : String) : String :=
  pyJoin " " hist ++ eosToken

end Chat

namespace Detect

/-- Embeds the counting loop of `SortPicturesTab.has_people_yolo`
(SortPicturesTab.py lines 227-231): iterate over every result's boxes and
count boxes whose class is 0 (COCO person).  A detection run is modelled
as the list, per result, of the class ids of its boxes. -/
def countPersons (results : List (List Int)) : Nat :=
  results.foldl
    (fun acc boxes =>
      boxes.foldl (fun a c => if c = 0 then a + 1 else a) acc)
    0

/-- Embeds the return value of `has_people_yolo`
(`return person_count > 0, person_count`, line 233). -/
def hasPeopleYolo (results : List (List Int)) : Bool × Nat :=
  (decide (0 < countPersons results), countPersons results)

/-- Embeds the Haar branch of the sort loop (SortPicturesTab.py lines
296-297): `has_people = len(faces) > 0; people_count = len(faces)`.
`faces` is the rectangle list returned by `detectMultiScale`. -/
def haarDetect {α : Type} (faces : List α) : Bool × Nat :=
  (decide (0 < faces.length), faces.length)

end Detect

namespace SortTab

/-- How processing of one input file can go inside the `for` loop of
`SortPicturesTab.sort_pictures` (lines 273-325), abstracting the external
detector and filesystem:

* `unreadable` — the Haar branch's `cv2.imread` returned `None`
  (lines 284-287): a warning is logged, `error_count` is incremented and
  the loop `continue`s.
* `detectRaise` — the detection call raised; control reaches the
  `except` block (lines 323-325).
* `classified h c copyRaises` — detection returned `(h, c)`; the
  with/without counter is incremented (lines 300-307), then
  `shutil.copy2` either succeeds (status line logged) or raises
  (`except` block: error line logged, `error_count` incremented). -/
inductive FileOutcome where
  | unreadable : FileOutcome
  | detectRaise : FileOutcome
  | classified (hasPeople : Bool) (count : Nat) (copyRaises : Bool) : FileOutcome
deriving DecidableEq, Repr

/-- One input file: its name plus how its processing goes. -/
structure InputFile where
  name : String
  outcome : FileOutcome
deriving DecidableEq, Repr

/-- The three outcome counters of the batch loop. -/
structure Counters where
  withPeople : Nat
  withoutPeople : Nat
  errors : Nat
deriving DecidableEq, Repr

/-- Effect of one loop iteration on the counters, following the source
order: classification increments with/without first; a later copy failure
additionally increments `error_count`. -/
def stepCounters (c : Counters) (o : FileOutcome) : Counters :=
  match o with
  | .unreadable => { c with errors := c.errors + 1 }
  | .detectRaise => { c with errors := c.errors + 1 }
  | .classified h _ copyRaises =>
    let c1 := if h then { c with withPeople := c.withPeople + 1 }
              else { c with withoutPeople := c.withoutPeople + 1 }
    if copyRaises then { c1 with errors := c1.errors + 1 } else c1

/-- The counters after the loop has run over the whole file list, started
from `with_people_count = without_people_count = error_count = 0`
(lines 269-271). -/
def sortCounters (files : List FileOutcome) : Counters :=
  files.foldl stepCounters ⟨0, 0, 0⟩

/-- Status-log lines emitted by `sort_pictures`, tagged by which
`log_status` call produced them. -/
inductive LogLine where
  | starting (method : String) : LogLine
  | loadingYolo : LogLine
  | yoloLoaded : LogLine
  | setupError (msg : String) : LogLine
  | installHint : LogLine
  | foundImages (n : Nat) : LogLine
  | couldNotRead (name : String) : LogLine
  | errorProcessing (name : String) : LogLine
  | statusWith (name : String) (count : Nat) : LogLine
  | statusWithout (name : String) : LogLine
  | summary (withC withoutC errC : Nat) : LogLine
deriving DecidableEq, Repr

/-- The single log line each loop iteration emits for its file:
the unreadable warning (line 285), the error line of the `except` block
(line 324) — also reached when the copy raises after classification,
since the status line is only logged after `shutil.copy2` — or the
status line (lines 303, 307, 321). -/
def lineOf (f : InputFile) : LogLine :=
  match f.outcome with
  | .unreadable => .couldNotRead f.name
  | .detectRaise => .errorProcessing f.name
  | .classified h c copyRaises =>
    if copyRaises then .errorProcessing f.name
    else if h then .statusWith f.name c else .statusWithout f.name

/-- The per-file portion of the status log. -/
def loopLogs (files : List InputFile) : List LogLine :=
  files.map lineOf

/-- Which detection backend was selected. -/
inductive Method where
  | yolo : Method
  | haar : Method
deriving DecidableEq, Repr

def Method.name : Method → String
  | .yolo => "YOLO"
  | .haar => "HAAR"

/-- Result of one `sort_pictures` run: the status log, the counters, how
many files were read from the input directory, and whether the start
button ended up re-enabled (`finish_sorting`, lines 353-356, always runs
via the `finally` block). -/
structure RunResult where
  logs : List LogLine
  counters : Counters
  filesRead : Nat
  buttonEnabled : Bool
deriving DecidableEq, Repr

/-- Embeds `SortPicturesTab.sort_pictures` (lines 235-351).  `initOk`
abstracts the success of backend initialization: for Haar, that the
cascade classifier loaded non-empty (lines 243-249); for YOLO, that
`YOLO('../../yolov8n.pt')` did not raise (lines 250-259).  On
initialization failure the function logs the setup error (Haar: one
line; YOLO: the error line plus the install hint), calls
`finish_sorting` and returns before the input directory is listed.
Otherwise it lists the files, runs the loop and logs the summary. -/
def sortPictures (method : Method) (initOk : Bool) (files : List InputFile) :
    RunResult :=
  let startLog := [LogLine.starting method.name]
  match method, initOk with
  | .haar, false =>
    { logs := startLog ++ [.setupError "Could not load face detection model"]
      counters := ⟨0, 0, 0⟩
      filesRead := 0
      buttonEnabled := true }
  | .yolo, false =>
    { logs := startLog ++ [.loadingYolo,
        .setupError "Error loading YOLO", .installHint]
      counters := ⟨0, 0, 0⟩
      filesRead := 0
      buttonEnabled := true }
  | _, true =>
    let loadLogs : List LogLine :=
      match method with
      | .yolo => [.loadingYolo, .yoloLoaded]
      | .haar => []
    let c := sortCounters (files.map InputFile.outcome)
    { logs := startLog ++ loadLogs ++ [.foundImages files.length]
        ++ loopLogs files
        ++ [.summary c.withPeople c.withoutPeople c.errors]
      counters := c
      filesRead := files.length
      buttonEnabled := true }

/-- Setup-error lines: the lines of the log that report the backend
initialization failure. -/
def LogLine.isSetupError : LogLine → Bool
  | .setupError _ => true
  | _ => false

/-- Per-file lines: lines emitted by the processing loop for one input
file. -/
def LogLine.isFileLine : LogLine → Bool
  | .couldNotRead _ => true
  | .errorProcessing _ => true
  | .statusWith _ _ => true
  | .statusWithout _ => true
  | _ => false

/-- The outcomes on which control reaches an error-counting branch of the
loop body. -/
def FileOutcome.isFailure : FileOutcome → Bool
  | .unreadable => true
  | .detectRaise => true
  | .classified _ _ copyRaises => copyRaises

/-- Files that were classified (a with/without counter was incremented)
and whose copy then raised: these are counted twice by the loop. -/
def FileOutcome.isClassifiedCopyFail : FileOutcome → Bool
  | .classified _ _ copyRaises => copyRaises
  | _ => false

/-- Number of classified-then-copy-failed files in a batch. -/
def copyFailCount (files : List FileOutcome) : Nat :=
  (files.filter FileOutcome.isClassifiedCopyFail).length

/-- Componentwise sum of counters. -/
def addC (a b : Counters) : Counters :=
  ⟨a.withPeople + b.withPeople, a.withoutPeople + b.withoutPeople,
   a.errors + b.errors⟩

/-- The increments a single file outcome contributes to the counters. -/
def incOf (o : FileOutcome) : Counters :=
  stepCounters ⟨0, 0, 0⟩ o

end SortTab

namespace TM

/-- Messages put on `self.result_queue` by the worker wrapper
(app.py lines 213, 215). -/
inductive QMsg (α ε : Type) where
  | success (value : α) : QMsg α ε
  | error (e : ε) : QMsg α ε
deriving DecidableEq, Repr

/-- TaskManager state relevant to `run_task`: whether `self.current_task`
is set and, if so, whether that thread `is_alive()`, plus
`self.cancel_flag` (app.py lines 196-199). -/
structure State where
  taskAlive : Option Bool
  cancelFlag : Bool
deriving DecidableEq, Repr

/-- What one call to `TaskManager.run_task` (app.py lines 201-223) does:
`accepted` is the return value, `spawned` records whether a new
`threading.Thread` was created and started, `state` is the TaskManager
state after the call.  The aliveness check (line 205) happens before the
flag is cleared (line 208), so a rejected call touches nothing. -/
structure RunTaskResult where
  accepted : Bool
  spawned : Bool
  state : State
deriving DecidableEq, Repr

def run_task (s : State) : RunTaskResult :=
  if s.taskAlive = some true then
    { accepted := false, spawned := false, state := s }
  else
    { accepted := true, spawned := true
      state := { taskAlive := some true, cancelFlag := false } }

/-- Embeds the `wrapper` closure of `run_task` (app.py lines 210-215).
The work function either returns a value or raises, modelled as
`Except`; the wrapper catches every raise and puts `('error', e)` on the
queue, so it always produces a queue message and never re-raises. -/
def wrapper {α ε : Type} (task_func : Bool → Except ε α) (cancelFlag : Bool) :
    QMsg α ε :=
  match task_func cancelFlag with
  | .ok v => .success v
  | .error e => .error e

/-- Embeds the dispatch of `check_result` once a message is available
(app.py lines 230-234): `('success', v)` goes to `on_complete`,
`('error', e)` goes to `on_error`. -/
def dispatch {α ε β : Type} (m : QMsg α ε) (on_complete : α → β)
    (on_error : ε → β) : β :=
  match m with
  | .success v => on_complete v
  | .error e => on_error e

/-- Threads of the embedded program: the caller's thread (the one that
called `run_task`, e.g. the UI thread), the worker thread started for
`wrapper`, and the fresh thread `threading.Timer(0.1, check_result)`
spawns for each poll (app.py lines 238, 240); `timer k` is the thread of
the k-th poll. -/
inductive Thread where
  | caller : Thread
  | worker : Thread
  | timer (poll : Nat) : Thread
deriving DecidableEq, Repr

/-- The poll interval of `_monitor_task`, in milliseconds
(`threading.Timer(0.1, check_result)`). -/
def pollIntervalMs : Nat := 100

/-- Embeds the polling loop of `_monitor_task` (app.py lines 225-240).
`polls` gives, for each successive poll, what `result_queue.get_nowait()`
yields: `none` for `queue.Empty` (the poll reschedules itself), `some m`
for a message.  The function returns the callback executions the loop
performs, each paired with the thread it runs on: `check_result` runs on
the thread `threading.Timer` spawned for that poll, so the callback does
too. -/
def monitorRun {α ε : Type} (polls : List (Option (QMsg α ε))) (k : Nat) :
    List (Thread × QMsg α ε) :=
  match polls with
  | [] => []
  | none :: rest => monitorRun rest (k + 1)
  | some m :: _ => [(Thread.timer k, m)]

end TM

namespace Names

/-- File names are modelled as their character lists. -/
abbrev Name : Type := List Char

/-- Decimal rendering of a natural number, as Python's `f"{counter}"`
produces it: core's `Nat.toDigits 10` (the same function underlying
`Nat.repr`). -/
def natChars (n : Nat) : List Char :=
  Nat.toDigits 10 n

/-- Reads a digit character back as its value. -/
def charVal (c : Char) : Nat :=
  c.toNat - 48

/-- Reads a decimal character list back as a number. -/
def parseDigits (l : List Char) : Nat :=
  l.foldl (fun a c => a * 10 + charVal c) 0

/-- The k-th candidate destination name tried by the collision loop of
`sort_pictures` (SortPicturesTab.py lines 310-316): the plain
`stem ++ suffix` first, then `f"{stem}_{counter}{suffix}"` for
`counter = 1, 2, ...`. -/
def cand (stem suffix : Name) : Nat → Name
  | 0 => stem ++ suffix
  | k + 1 => stem ++ '_' :: (natChars (k + 1) ++ suffix)

/-- Embeds the `while dest_path.exists()` loop: starting with candidate
index `k`, return the first candidate not present in the destination
directory `dir`, trying at most `fuel` candidates. -/
def findFreeAux (dir : List Name) (stem suffix : Name) :
    Nat → Nat → Option Name
  | 0, _ => none
  | fuel + 1, k =>
    let c := cand stem suffix k
    if c ∈ dir then findFreeAux dir stem suffix fuel (k + 1) else some c

/-- The destination name the collision loop settles on.  Trying
`dir.length + 1` candidates always suffices (proved below), so the
`Option` is always `some`. -/
def findFreeName (dir : List Name) (stem suffix : Name) : Option Name :=
  findFreeAux dir stem suffix (dir.length + 1) 0

end Names

namespace Names

theorem toDigitsCore_shift (fuel : Nat) :
    ∀ (n : Nat) (acc : List Char),
      Nat.toDigitsCore 10 fuel n acc = Nat.toDigitsCore 10 fuel n [] ++ acc := by
  induction fuel with
  | zero => intro n acc; simp [Nat.toDigitsCore]
  | succ f ih =>
    intro n acc
    simp only [Nat.toDigitsCore]
    by_cases h : n / 10 = 0
    · simp [h]
    · simp only [h, if_false]
      rw [ih (n / 10) (Nat.digitChar (n % 10) :: acc),
          ih (n / 10) [Nat.digitChar (n % 10)]]
      simp

theorem charVal_digitChar (d : Nat) (h : d < 10) :
    charVal (Nat.digitChar d) = d := by
  interval_cases d <;> decide

theorem parseDigits_toDigitsCore (fuel : Nat) :
    ∀ n : Nat, n < fuel →
      parseDigits (Nat.toDigitsCore 10 fuel n []) = n := by
  induction fuel with
  | zero => intro n h; omega
  | succ f ih =>
    intro n h
    simp only [Nat.toDigitsCore]
    by_cases h10 : n / 10 = 0
    · have hn : n < 10 := by
        rcases Nat.lt_or_ge n 10 with h' | h'
        · exact h'
        · exact absurd h10 (by
            have : n / 10 ≥ 1 := Nat.le_div_iff_mul_le (by omega) |>.2 (by omega)
            omega)
      simp only [h10, if_true]
      have hmod : n % 10 = n := Nat.mod_eq_of_lt hn
      simp only [parseDigits, List.foldl_cons, List.foldl_nil, Nat.zero_mul,
        Nat.zero_add]
      rw [hmod, charVal_digitChar n hn]
    · have hge : 10 ≤ n := by
        rcases Nat.lt_or_ge n 10 with h' | h'
        · exact absurd (Nat.div_eq_of_lt h') h10
        · exact h'
      have hm : n / 10 < f := by
        have h1 : n / 10 < n := Nat.div_lt_self (by omega) (by omega)
        omega
      simp only [h10, if_false]
      rw [toDigitsCore_shift]
      simp only [parseDigits, List.foldl_append, List.foldl_cons, List.foldl_nil]
      have hih := ih (n / 10) hm
      simp only [parseDigits] at hih
      rw [hih, charVal_digitChar (n % 10) (Nat.mod_lt n (by omega))]
      omega

theorem natChars_inj {a b : Nat} (h : natChars a = natChars b) : a = b := by
  have ha := parseDigits_toDigitsCore (a + 1) a (by omega)
  have hb := parseDigits_toDigitsCore (b + 1) b (by omega)
  unfold natChars Nat.toDigits at h
  rw [h, hb] at ha
  exact ha.symm

end Names

namespace Names

theorem cand_inj (stem suffix : Name) :
    ∀ i j, cand stem suffix i = cand stem suffix j → i = j := by
  intro i j h
  match i, j with
  | 0, 0 => rfl
  | 0, j + 1 =>
    exfalso
    simp only [cand] at h
    have h' := List.append_cancel_left h
    have := congrArg List.length h'
    simp [List.length_append] at this
    omega
  | i + 1, 0 =>
    exfalso
    simp only [cand] at h
    have h' := List.append_cancel_left h
    have := congrArg List.length h'
    simp [List.length_append] at this
    omega
  | i + 1, j + 1 =>
    simp only [cand] at h
    have h1 := List.append_cancel_left h
    have h2 := List.tail_eq_of_cons_eq h1
    have h3 := List.append_cancel_right h2
    rw [natChars_inj h3]

theorem exists_cand_free (dir : List Name) (stem suffix : Name) :
    ∃ k, k ≤ dir.length ∧ cand stem suffix k ∉ dir := by
  by_contra hcon
  push_neg at hcon
  have hsub : ((List.range (dir.length + 1)).map (cand stem suffix)) ⊆ dir := by
    intro x hx
    rcases List.mem_map.1 hx with ⟨k, hk, rfl⟩
    exact hcon k (Nat.lt_succ_iff.1 (List.mem_range.1 hk))
  have hnd : ((List.range (dir.length + 1)).map (cand stem suffix)).Nodup :=
    (List.nodup_range _).map (fun a b hab => cand_inj stem suffix a b hab)
  have hle := (List.subperm_of_subset hnd hsub).length_le
  simp only [List.length_map, List.length_range] at hle
  omega

end Names

namespace Names

theorem findFreeAux_some (dir : List Name) (stem suffix : Name) :
    ∀ fuel k, (∃ j, k ≤ j ∧ j < k + fuel ∧ cand stem suffix j ∉ dir) →
      ∃ n, findFreeAux dir stem suffix fuel k = some n := by
  intro fuel
  induction fuel with
  | zero => intro k ⟨j, h1, h2, _⟩; omega
  | succ f ih =>
    intro k ⟨j, h1, h2, h3⟩
    simp only [findFreeAux]
    by_cases hc : cand stem suffix k ∈ dir
    · simp only [hc, if_true]
      apply ih (k + 1)
      refine ⟨j, ?_, by omega, h3⟩
      rcases Nat.eq_or_lt_of_le h1 with rfl | hlt
      · exact absurd hc h3
      · omega
    · exact ⟨cand stem suffix k, by simp [hc]⟩

theorem findFreeAux_spec (dir : List Name) (stem suffix : Name) :
    ∀ fuel k n, findFreeAux dir stem suffix fuel k = some n →
      n ∉ dir ∧ ∃ j, k ≤ j ∧ n = cand stem suffix j ∧
        ∀ i, k ≤ i → i < j → cand stem suffix i ∈ dir := by
  intro fuel
  induction fuel with
  | zero => intro k n h; simp [findFreeAux] at h
  | succ f ih =>
    intro k n h
    simp only [findFreeAux] at h
    by_cases hc : cand stem suffix k ∈ dir
    · simp only [hc, if_true] at h
      obtain ⟨hnot, j, hj1, hj2, hj3⟩ := ih (k + 1) n h
      refine ⟨hnot, j, by omega, hj2, ?_⟩
      intro i hi1 hi2
      rcases Nat.eq_or_lt_of_le hi1 with rfl | hlt
      · exact hc
      · exact hj3 i hlt hi2
    · simp only [hc, if_false, Option.some.injEq] at h
      refine ⟨h ▸ hc, k, le_refl k, h.symm, ?_⟩
      intro i hi1 hi2
      exact (Nat.not_lt.2 hi1 hi2).elim

theorem findFreeName_spec (dir : List Name) (stem suffix : Name) :
    ∃ n, findFreeName dir stem suffix = some n ∧ n ∉ dir ∧
      ∃ j, n = cand stem suffix j ∧
        ∀ i, i < j → cand stem suffix i ∈ dir := by
  obtain ⟨j, hj1, hj2⟩ := exists_cand_free dir stem suffix
  obtain ⟨n, hn⟩ := findFreeAux_some dir stem suffix (dir.length + 1) 0
    ⟨j, by omega, by omega, hj2⟩
  obtain ⟨hnot, j', _, hj'2, hj'3⟩ := findFreeAux_spec dir stem suffix _ 0 n hn
  exact ⟨n, hn, hnot, j', hj'2, fun i hi => hj'3 i (by omega) hi⟩

end Names

namespace SortTab

theorem stepCounters_eq_addC (c : Counters) (o : FileOutcome) :
    stepCounters c o = addC c (incOf o) := by
  cases o with
  | unreadable => rfl
  | detectRaise => rfl
  | classified h cnt cr => cases h <;> cases cr <;> rfl

theorem addC_assoc (a b c : Counters) :
    addC (addC a b) c = addC a (addC b c) := by
  simp [addC, Nat.add_assoc]

theorem foldl_stepCounters (files : List FileOutcome) :
    ∀ c, files.foldl stepCounters c = addC c (sortCounters files) := by
  induction files with
  | nil => intro c; rfl
  | cons o rest ih =>
    intro c
    simp only [sortCounters, List.foldl_cons]
    rw [ih (stepCounters c o), ih (stepCounters ⟨0, 0, 0⟩ o),
        stepCounters_eq_addC c o, stepCounters_eq_addC ⟨0, 0, 0⟩ o,
        addC_assoc]
    have : incOf o = addC ⟨0, 0, 0⟩ (incOf o) := by
      simp [addC]
    rw [← this]

theorem sortCounters_cons (o : FileOutcome) (files : List FileOutcome) :
    sortCounters (o :: files) = addC (incOf o) (sortCounters files) := by
  simp only [sortCounters, List.foldl_cons]
  rw [foldl_stepCounters files (stepCounters ⟨0, 0, 0⟩ o)]
  rfl

theorem counters_sum (files : List FileOutcome) :
    (sortCounters files).withPeople + (sortCounters files).withoutPeople +
      (sortCounters files).errors = files.length + copyFailCount files := by
  induction files with
  | nil => rfl
  | cons o rest ih =>
    rw [sortCounters_cons]
    have hcf : copyFailCount (o :: rest) =
        (if o.isClassifiedCopyFail then 1 else 0) + copyFailCount rest := by
      simp only [copyFailCount, List.filter]
      cases hb : o.isClassifiedCopyFail <;> simp [hb, Nat.add_comm]
    rw [hcf]
    simp only [addC, List.length_cons]
    cases o with
    | unreadable =>
      simp only [incOf, stepCounters, FileOutcome.isClassifiedCopyFail]
      simp
      omega
    | detectRaise =>
      simp only [incOf, stepCounters, FileOutcome.isClassifiedCopyFail]
      simp
      omega
    | classified h cnt cr =>
      cases h <;> cases cr <;>
        simp only [incOf, stepCounters, FileOutcome.isClassifiedCopyFail] <;>
        simp <;> omega

end SortTab

namespace Chat

theorem appendUserMessage_length_le (hist : List String) (msg : String) :
    (appendUserMessage hist msg).length ≤ 10 := by
  simp only [appendUserMessage]
  by_cases h : (hist ++ [msg]).length > 10
  · simp only [h, if_true, List.length_drop]
    omega
  · simp only [h, if_false]
    omega

theorem appendUserMessage_suffix (hist : List String) (msg : String) :
    (appendUserMessage hist msg) <:+ (hist ++ [msg]) := by
  simp only [appendUserMessage]
  by_cases h : (hist ++ [msg]).length > 10
  · simp only [h, if_true]
    exact List.drop_suffix _ _
  · simp only [h, if_false]
    exact List.suffix_refl _

theorem chatTurn_length_le (hist : List String) (user resp : String) :
    (chatTurn hist user resp).length ≤ 11 := by
  simp only [chatTurn, appendBotReply, List.length_append, List.length_cons,
    List.length_nil]
  have := appendUserMessage_length_le hist user
  omega

theorem pyJoin_append_head (sep x y : String) :
    ∀ as, pyJoin sep ((x ++ y) :: as) = x ++ pyJoin sep (y :: as) := by
  intro as
  cases as with
  | nil => rfl
  | cons b bs =>
    show (x ++ y) ++ sep ++ pyJoin sep (b :: bs) =
      x ++ ((y ++ sep) ++ pyJoin sep (b :: bs))
    rw [String.append_assoc, String.append_assoc, String.append_assoc]

theorem intercalate_go_eq (sep : String) :
    ∀ (as : List String) (acc : String),
      String.intercalate.go acc sep as = pyJoin sep (acc :: as) := by
  intro as
  induction as with
  | nil => intro acc; rfl
  | cons a as ih =>
    intro acc
    show String.intercalate.go (acc ++ sep ++ a) sep as = _
    rw [ih (acc ++ sep ++ a)]
    have : acc ++ sep ++ a = (acc ++ sep) ++ a := rfl
    rw [this, pyJoin_append_head sep (acc ++ sep) a as]
    rfl

theorem pyJoin_eq_intercalate (sep : String) (l : List String) :
    pyJoin sep l = String.intercalate sep l := by
  cases l with
  | nil => rfl
  | cons a as =>
    show pyJoin sep (a :: as) = String.intercalate.go a sep as
    rw [intercalate_go_eq sep as a]

end Chat

namespace TM

theorem monitorRun_thread {α ε : Type} :
    ∀ (polls : List (Option (QMsg α ε))) (k : Nat) (th : Thread)
      (m : QMsg α ε), (th, m) ∈ monitorRun polls k →
        ∃ j, k ≤ j ∧ th = Thread.timer j := by
  intro polls
  induction polls with
  | nil => intro k th m h; simp [monitorRun] at h
  | cons p rest ih =>
    intro k th m h
    cases p with
    | none =>
      obtain ⟨j, hj1, hj2⟩ := ih (k + 1) th m h
      exact ⟨j, by omega, hj2⟩
    | some q =>
      simp only [monitorRun, List.mem_singleton, Prod.mk.injEq] at h
      exact ⟨k, le_refl k, h.1⟩

end TM

namespace SortTab

theorem sortCounters_append (xs ys : List FileOutcome) :
    sortCounters (xs ++ ys) = addC (sortCounters xs) (sortCounters ys) := by
  simp only [sortCounters, List.foldl_append]
  rw [foldl_stepCounters ys (List.foldl stepCounters ⟨0, 0, 0⟩ xs)]
  rfl

end SortTab

/-- C1, as stated, is false on the code: the three counters need not sum
to the number of input files.  Concrete input: one file classified as
with-people whose copy then raises; `with_people_count` is incremented at
classification (line 302) and `error_count` in the `except` block
(line 325), so the sum is 2 for a single file. -/
theorem claim_C1_counterexample :
    ¬ ((SortTab.sortCounters [SortTab.FileOutcome.classified true 1 true]).withPeople +
       (SortTab.sortCounters [SortTab.FileOutcome.classified true 1 true]).withoutPeople +
       (SortTab.sortCounters [SortTab.FileOutcome.classified true 1 true]).errors =
       [SortTab.FileOutcome.classified true 1 true].length) := by
  decide

/-- C1 (amended): after the loop over N files completes,
`with_people_count + without_people_count + error_count` equals N plus the
number of files that were classified but whose copy then raised — each
such file contributes to two counters; when no copy fails after
classification the sum is exactly N, and with zero errors of any kind
exactly N items are classified and copied. -/
theorem claim_C1 (files : List SortTab.FileOutcome) :
    (SortTab.sortCounters files).withPeople +
      (SortTab.sortCounters files).withoutPeople +
      (SortTab.sortCounters files).errors =
      files.length + SortTab.copyFailCount files :=
  SortTab.counters_sum files

/-- C2, as stated, is false on the code: after the assistant-reply append
of the sixth turn (which is not followed by a truncation, lines 430-431)
the log holds 11 entries. -/
theorem claim_C2_counterexample :
    ¬ ((Chat.runChatTurns [] [("u1", "r1"), ("u2", "r2"), ("u3", "r3"),
        ("u4", "r4"), ("u5", "r5"), ("u6", "r6")]).length ≤ 10) := by
  decide

/-- C2 (amended): truncation runs only on the user-utterance append, so
after that append the log has at most 10 entries and the retained entries
are a suffix of the full appended history (oldest evicted first, FIFO);
after the turn's assistant-reply append the log has at most 11 entries —
it never exceeds 11, not 10. -/
theorem claim_C2 (hist : List String) (user resp : String) :
    (Chat.appendUserMessage hist user).length ≤ 10 ∧
    Chat.appendUserMessage hist user <:+ hist ++ [user] ∧
    (Chat.chatTurn hist user resp).length ≤ 11 :=
  ⟨Chat.appendUserMessage_length_le hist user,
   Chat.appendUserMessage_suffix hist user,
   Chat.chatTurn_length_le hist user resp⟩

/-- C3: if a task is alive, `run_task` returns `False`, starts no thread
and leaves the whole TaskManager state (including the cancellation flag)
unchanged; if no task is alive (never started, or finished after
success/error/cancel), `run_task` accepts, returning `True` and starting
a thread. -/
theorem claim_C3 (s : TM.State) :
    (s.taskAlive = some true → TM.run_task s = ⟨false, false, s⟩) ∧
    (s.taskAlive ≠ some true →
      (TM.run_task s).accepted = true ∧ (TM.run_task s).spawned = true) := by
  constructor
  · intro h
    simp [TM.run_task, h]
  · intro h
    simp [TM.run_task, h]

/-- Witness for C3 at concrete states: a running task (alive, flagged)
rejects a second submit unchanged; a finished task accepts the next
submit. -/
theorem claim_C3_witness :
    TM.run_task ⟨some true, true⟩ = ⟨false, false, ⟨some true, true⟩⟩ ∧
    (TM.run_task ⟨some false, true⟩).accepted = true ∧
    (TM.run_task ⟨some false, true⟩).spawned = true :=
  ⟨(claim_C3 ⟨some true, true⟩).1 rfl,
   (claim_C3 ⟨some false, true⟩).2 (by decide)⟩

/-- C4, as stated, is false on the code: `_monitor_task` polls through
`threading.Timer(0.1, check_result)` (app.py lines 238, 240), and a
`threading.Timer` runs its function on a fresh thread of its own — so the
callback executes on that timer thread, not on the caller's original
execution context.  Concrete input: a queue that already holds a success
message at the first poll. -/
theorem claim_C4_counterexample :
    TM.monitorRun [some (TM.QMsg.success 42 : TM.QMsg Nat String)] 0 =
      [(TM.Thread.timer 0, TM.QMsg.success 42)] ∧
    TM.Thread.timer 0 ≠ TM.Thread.caller := by
  decide

/-- C4 (amended): every callback execution the monitor performs runs on
the fresh thread spawned by `threading.Timer` for that poll of the
single-slot result channel (polled every 100 ms) — never on the worker
thread, but also never on the caller's original thread. -/
theorem claim_C4 {α ε : Type} (polls : List (Option (TM.QMsg α ε)))
    (k : Nat) (th : TM.Thread) (m : TM.QMsg α ε)
    (h : (th, m) ∈ TM.monitorRun polls k) :
    th ≠ TM.Thread.worker ∧ th ≠ TM.Thread.caller ∧
      (∃ j, th = TM.Thread.timer j) ∧ TM.pollIntervalMs = 100 := by
  obtain ⟨j, _, rfl⟩ := TM.monitorRun_thread polls k th m h
  refine ⟨?_, ?_, ⟨j, rfl⟩, rfl⟩
  · intro hco
    cases hco
  · intro hco
    cases hco

/-- Witness for C4 (amended) at a concrete poll trace. -/
theorem claim_C4_witness :
    TM.Thread.timer 0 ≠ TM.Thread.worker ∧
    TM.Thread.timer 0 ≠ TM.Thread.caller ∧
    (∃ j, TM.Thread.timer 0 = TM.Thread.timer j) ∧ TM.pollIntervalMs = 100 :=
  claim_C4 [some (TM.QMsg.success 0 : TM.QMsg Nat String)] 0
    (TM.Thread.timer 0) (TM.QMsg.success 0) (by decide)

/-- C5: every exception the work function raises is caught inside the
worker wrapper (app.py lines 210-215) and put on the result queue as
`('error', e)`; the wrapper is a total function into queue messages, so
nothing propagates out of the worker, and `check_result` hands the error
to `on_error` as a value. -/
theorem claim_C5 {α ε β : Type} (work : Bool → Except ε α) (flag : Bool)
    (onC : α → β) (onE : ε → β) (e : ε)
    (hw : work flag = Except.error e) :
    TM.wrapper work flag = TM.QMsg.error e ∧
    TM.dispatch (TM.wrapper work flag) onC onE = onE e := by
  constructor
  · simp [TM.wrapper, hw]
  · simp [TM.wrapper, TM.dispatch, hw]

/-- Witness for C5: a work function that raises `"boom"` is converted to
an error message and delivered to `on_error`. -/
theorem claim_C5_witness :
    TM.wrapper (fun _ => (Except.error "boom" : Except String Nat)) false =
      TM.QMsg.error "boom" ∧
    TM.dispatch
      (TM.wrapper (fun _ => (Except.error "boom" : Except String Nat)) false)
      (fun n => n + 1) (fun _ => 0) = 0 :=
  claim_C5 (fun _ => (Except.error "boom" : Except String Nat)) false
    (fun n => n + 1) (fun _ => 0) "boom" rfl

/-- C6: for two distinct source files that would receive the same
destination name (same stem and extension), the collision loop tries
`stem++ext`, `stem_1++ext`, `stem_2++ext`, ... and settles on the first
candidate not present in the destination directory; hence the first copy
gets a name free in `dir`, the second copy (run against the directory
that now also holds the first) gets a different free name, both are
present afterwards, every pre-existing file is still present, and no
existing destination file is ever overwritten. -/
theorem claim_C6 (dir : List Names.Name) (stem suffix : Names.Name) :
    ∃ n1 n2,
      Names.findFreeName dir stem suffix = some n1 ∧
      Names.findFreeName (n1 :: dir) stem suffix = some n2 ∧
      n1 ∉ dir ∧ n2 ∉ dir ∧ n1 ≠ n2 ∧
      n1 ∈ n2 :: n1 :: dir ∧ n2 ∈ n2 :: n1 :: dir ∧
      (∀ m ∈ dir, m ∈ n2 :: n1 :: dir) ∧
      (∃ j1, n1 = Names.cand stem suffix j1 ∧
        ∀ i, i < j1 → Names.cand stem suffix i ∈ dir) ∧
      (∃ j2, n2 = Names.cand stem suffix j2 ∧
        ∀ i, i < j2 → Names.cand stem suffix i ∈ n1 :: dir) := by
  obtain ⟨n1, h1, hn1, j1, hj1, hmin1⟩ := Names.findFreeName_spec dir stem suffix
  obtain ⟨n2, h2, hn2, j2, hj2, hmin2⟩ :=
    Names.findFreeName_spec (n1 :: dir) stem suffix
  have hne : n2 ≠ n1 := fun he => hn2 (he ▸ List.mem_cons_self n1 dir)
  have hn2' : n2 ∉ dir := fun hm => hn2 (List.mem_cons_of_mem _ hm)
  exact ⟨n1, n2, h1, h2, hn1, hn2', Ne.symm hne,
    List.mem_cons_of_mem _ (List.mem_cons_self _ _),
    List.mem_cons_self _ _,
    fun m hm => List.mem_cons_of_mem _ (List.mem_cons_of_mem _ hm),
    ⟨j1, hj1, hmin1⟩, ⟨j2, hj2, hmin2⟩⟩

/-- C7: when the selected backend fails to initialize, `sort_pictures`
returns before the input directory is listed (zero files read, no
per-file log line), the status log carries exactly one setup-error line,
and `finish_sorting` re-enables the start button. -/
theorem claim_C7 (method : SortTab.Method) (files : List SortTab.InputFile) :
    (SortTab.sortPictures method false files).filesRead = 0 ∧
    ((SortTab.sortPictures method false files).logs.filter
      SortTab.LogLine.isSetupError).length = 1 ∧
    ((SortTab.sortPictures method false files).logs.filter
      SortTab.LogLine.isFileLine) = [] ∧
    (SortTab.sortPictures method false files).buttonEnabled = true := by
  cases method <;> exact ⟨rfl, rfl, rfl, rfl⟩

/-- C8: a file whose processing fails (unreadable file, detection raise,
or copy raise) yields exactly one log line, contributes exactly one to
`error_count`, and the loop continues: the counters of the whole batch
decompose as the counters of the files before it, plus that file's
increments, plus the counters of the files after it, which are processed
unchanged. -/
theorem claim_C8 (pre suf : List SortTab.InputFile) (f : SortTab.InputFile)
    (hf : f.outcome.isFailure = true) :
    SortTab.loopLogs (pre ++ f :: suf) =
      SortTab.loopLogs pre ++ SortTab.lineOf f :: SortTab.loopLogs suf ∧
    SortTab.sortCounters ((pre ++ f :: suf).map SortTab.InputFile.outcome) =
      SortTab.addC (SortTab.sortCounters (pre.map SortTab.InputFile.outcome))
        (SortTab.addC (SortTab.incOf f.outcome)
          (SortTab.sortCounters (suf.map SortTab.InputFile.outcome))) ∧
    (SortTab.incOf f.outcome).errors = 1 := by
  refine ⟨?_, ?_, ?_⟩
  · simp [SortTab.loopLogs]
  · simp only [List.map_append, List.map_cons]
    rw [SortTab.sortCounters_append, SortTab.sortCounters_cons]
  · obtain ⟨nm, o⟩ := f
    cases o with
    | unreadable => rfl
    | detectRaise => rfl
    | classified h c cr =>
      simp only [SortTab.FileOutcome.isFailure] at hf
      subst hf
      cases h <;> rfl

/-- Witness for C8 at a concrete batch: an unreadable file between two
successfully classified files. -/
theorem claim_C8_witness :
    (SortTab.InputFile.mk "b" SortTab.FileOutcome.unreadable).outcome.isFailure
      = true ∧
    (SortTab.loopLogs ([SortTab.InputFile.mk "a"
          (SortTab.FileOutcome.classified true 2 false)] ++
        SortTab.InputFile.mk "b" SortTab.FileOutcome.unreadable ::
        [SortTab.InputFile.mk "c"
          (SortTab.FileOutcome.classified false 0 false)]) =
      SortTab.loopLogs [SortTab.InputFile.mk "a"
          (SortTab.FileOutcome.classified true 2 false)] ++
        SortTab.lineOf (SortTab.InputFile.mk "b"
          SortTab.FileOutcome.unreadable) ::
        SortTab.loopLogs [SortTab.InputFile.mk "c"
          (SortTab.FileOutcome.classified false 0 false)] ∧
    SortTab.sortCounters (([SortTab.InputFile.mk "a"
          (SortTab.FileOutcome.classified true 2 false)] ++
        SortTab.InputFile.mk "b" SortTab.FileOutcome.unreadable ::
        [SortTab.InputFile.mk "c"
          (SortTab.FileOutcome.classified false 0 false)]).map
            SortTab.InputFile.outcome) =
      SortTab.addC (SortTab.sortCounters
          ([SortTab.InputFile.mk "a"
            (SortTab.FileOutcome.classified true 2 false)].map
              SortTab.InputFile.outcome))
        (SortTab.addC (SortTab.incOf (SortTab.InputFile.mk "b"
            SortTab.FileOutcome.unreadable).outcome)
          (SortTab.sortCounters ([SortTab.InputFile.mk "c"
            (SortTab.FileOutcome.classified false 0 false)].map
              SortTab.InputFile.outcome))) ∧
    (SortTab.incOf (SortTab.InputFile.mk "b"
      SortTab.FileOutcome.unreadable).outcome).errors = 1) :=
  ⟨rfl, claim_C8
    [SortTab.InputFile.mk "a" (SortTab.FileOutcome.classified true 2 false)]
    [SortTab.InputFile.mk "c" (SortTab.FileOutcome.classified false 0 false)]
    (SortTab.InputFile.mk "b" SortTab.FileOutcome.unreadable) rfl⟩

/-- C9: for every non-empty conversation log, the prompt is the retained
entries joined in insertion order with a single space (the source's
`" ".join` agrees with the canonical `String.intercalate " "`), followed
by the terminator token; in particular the terminator's characters are a
suffix of the prompt. -/
theorem claim_C9 (hist : List String) (eosToken : String) (h : hist ≠ []) :
    Chat.buildPrompt hist eosToken =
      String.intercalate " " hist ++ eosToken ∧
    eosToken.data <:+ (Chat.buildPrompt hist eosToken).data := by
  constructor
  · simp only [Chat.buildPrompt, Chat.pyJoin_eq_intercalate]
  · simp only [Chat.buildPrompt, String.data_append]
    exact List.suffix_append _ _

/-- Witness for C9 at a concrete two-entry log. -/
theorem claim_C9_witness :
    (["hello", "world"] : List String) ≠ [] ∧
    (Chat.buildPrompt ["hello", "world"] "<EOS>" =
      String.intercalate " " ["hello", "world"] ++ "<EOS>" ∧
    "<EOS>".data <:+ (Chat.buildPrompt ["hello", "world"] "<EOS>").data) :=
  ⟨by decide, claim_C9 ["hello", "world"] "<EOS>" (by decide)⟩

/-- C10: both backends return `found = (count > 0)`: the YOLO path pairs
`person_count > 0` with `person_count`, and the Haar path sets
`has_people` to `len(faces) > 0` with `people_count = len(faces)`. -/
theorem claim_C10 {α : Type} (results : List (List Int)) (faces : List α) :
    ((Detect.hasPeopleYolo results).1 = true ↔
      0 < (Detect.hasPeopleYolo results).2) ∧
    ((Detect.haarDetect faces).1 = true ↔ 0 < (Detect.haarDetect faces).2) := by
  constructor
  · simp [Detect.hasPeopleYolo]
  · simp [Detect.haarDetect]
